import Mathlib

/-
Shallow embedding of the calendar / booking logic of `src/calendar.tsx` and the
note-deletion logic of `src/note.tsx` (the `Note` component).

Modelling conventions:
* Timestamps are integers, the milliseconds produced by `Date.getTime()`; the
  arithmetic in the source (`t.getTime() + slotMin * 60000`) is carried over
  verbatim.  Concrete examples place midnight of the target day at 0, so
  14:00 is 50400000 ms and 16:00 is 57600000 ms.
* `uid()` (crypto.randomUUID) is modelled by a counter supply: each candidate
  constructed during one `generateTimeSlots` run consumes the next id, whether
  or not it survives the conflict filter, exactly as each constructed candidate
  in the source consumes one `uid()` call.
* The `for` loop of `generateTimeSlots` is written as a fuel-indexed recursion;
  the wrapper passes fuel that bounds the number of loop iterations
  (`(stop - start) / stride + 1`), so the fuel never runs out before the
  loop's own exit conditions fire.
* Remote writes are modelled as values: `GenResult.created` carries the batch
  passed to `saveEvents`, `BookingWrite` is the single `updateDoc` patch of the
  booking branch, and `DelAction` traces the deletes issued by `handleDelete`.
-/

namespace MLBQ

inductive SlotStatus
  | available
  | booked
  | pending
deriving DecidableEq, Repr

/-- The `CalendarEvent` document shape (src/calendar.tsx lines 23–29): `start`
is required, `end` optional, `status` and `studentName` optional. -/
structure CalendarEvent where
  id : Nat
  title : String
  start : Int
  «end» : Option Int
  allDay : Bool
  color : String
  status : Option SlotStatus
  studentName : Option String
deriving DecidableEq, Repr

/-- `new Date(a.start).getTime()` of the source, on the modelled timestamps. -/
def evStart (e : CalendarEvent) : Int := e.start

/-- `a.end ? new Date(a.end).getTime() : aStart` (src/calendar.tsx line 49):
a missing `end` falls back to the event's `start`. -/
def evEnd (e : CalendarEvent) : Int := (e.«end»).getD e.start

/-- `overlaps` (src/calendar.tsx lines 47–53):
`aStart < bEnd && bStart < aEnd`. -/
def overlaps (a b : CalendarEvent) : Bool :=
  decide (evStart a < evEnd b) && decide (evStart b < evEnd a)

inductive GenResult
  | invalidRange
  | noSlots
  | created (slots : List CalendarEvent)
deriving DecidableEq, Repr

/-- The loop body of `generateTimeSlots` (src/calendar.tsx lines 227–243):
`for (let t = start; t < end; t += slotMin*60000) { const t2 = t + slotMin*60000;
if (t2 > end) break; ...candidate...; if (!events.some(e => overlaps(e,candidate)))
created.push(candidate); }`.  `fuel` bounds the iteration count and is supplied
large enough by the wrapper. -/
def genLoop (stride stop : Int) (existing : List CalendarEvent) (title : String) :
    Nat → Nat → Int → List CalendarEvent
  | 0, _, _ => []
  | fuel + 1, idBase, t =>
    if t < stop ∧ t + stride ≤ stop then
      let t2 := t + stride
      let candidate : CalendarEvent :=
        { id := idBase, title := title, start := t, «end» := some t2,
          allDay := false, color := "#43a047", status := some .available,
          studentName := none }
      let rest := genLoop stride stop existing title fuel (idBase + 1) t2
      if existing.any (fun e => overlaps e candidate) then rest
      else candidate :: rest
    else []

/-- `generateTimeSlots` (src/calendar.tsx lines 203–252), after the prompt /
parsing plumbing: `slotMin = Math.max(5, parsed)`; `end <= start` is rejected
with the 'Invalid time range.' alert (`invalidRange`); an empty survivor list
is reported with the 'No slots created' alert (`noSlots`); otherwise the
created batch is persisted via `saveEvents`. -/
def generateTimeSlots (start stop slotMinRaw : Int) (existing : List CalendarEvent)
    (title : String) (idBase : Nat) : GenResult :=
  let slotMin := max 5 slotMinRaw
  if stop ≤ start then .invalidRange
  else
    let stride := slotMin * 60000
    let fuel := ((stop - start) / stride).toNat + 1
    let created := genLoop stride stop existing title fuel idBase start
    if created.isEmpty then .noSlots
    else .created created

/-- The batch handed to `saveEvents`: only the `created` outcome writes. -/
def genWrites : GenResult → List CalendarEvent
  | .created slots => slots
  | _ => []

/-- The single `updateDoc` patch issued by the booking branch of
`handleEventClick` (src/calendar.tsx lines 187–191). -/
structure BookingWrite where
  targetId : Nat
  status : SlotStatus
  studentName : String
  color : String
deriving DecidableEq, Repr

/-- The conflict scan of `handleEventClick` (src/calendar.tsx lines 176–181):
`events.some(e => e.status === 'booked' && e.studentName === name &&
overlaps(e, candidate))`. -/
def bookingConflict (events : List CalendarEvent) (name : String)
    (candidate : CalendarEvent) : Bool :=
  events.any fun e =>
    e.status == some .booked && e.studentName == some name && overlaps e candidate

/-- The booking branch of `handleEventClick` (src/calendar.tsx lines 166–193):
find the clicked event, require status `available` and a non-empty name
(`if (!name) return`), refuse on conflict, otherwise issue the one patch
setting `status`, `studentName` and `color`. -/
def handleBookClick (events : List CalendarEvent) (evId : Nat) (name : String) :
    Option BookingWrite :=
  match events.find? (fun e => e.id == evId) with
  | none => none
  | some ev =>
    if ev.status == some SlotStatus.available then
      if name = "" then none
      else
        let candidate := { ev with studentName := some name }
        if bookingConflict events name candidate then none
        else some ⟨evId, .booked, name, "#f6c343"⟩
    else none

/-- Effect of a `BookingWrite` patch on the live snapshot: the document with
the target id receives the new `status`, `studentName` and `color`. -/
def applyBookingWrite (events : List CalendarEvent) (w : BookingWrite) :
    List CalendarEvent :=
  events.map fun e =>
    if e.id = w.targetId then
      { e with status := some w.status, studentName := some w.studentName,
               color := w.color }
    else e

/-- The client operations that mutate the event collection: slot generation,
booking, deletion (`removeEvent`), the `eventDrop` handler (src/calendar.tsx
lines 415–421, writes `start`/`end`/`allDay` unconditionally) and the
`eventResize` handler (lines 422–426, writes `end` unconditionally). -/
inductive ClientOp
  | generate (start stop slotMinRaw : Int) (title : String) (idBase : Nat)
  | book (evId : Nat) (name : String)
  | deleteEv (evId : Nat)
  | drag (evId : Nat) (newStart : Int) (newEnd : Option Int) (allDay : Bool)
  | resize (evId : Nat) (newEnd : Option Int)
deriving DecidableEq, Repr

/-- The state transition each operation performs on the event snapshot. -/
def applyOp (events : List CalendarEvent) : ClientOp → List CalendarEvent
  | .generate start stop m title idBase =>
    match generateTimeSlots start stop m events title idBase with
    | .created slots => events ++ slots
    | _ => events
  | .book evId name =>
    match handleBookClick events evId name with
    | some w => applyBookingWrite events w
    | none => events
  | .deleteEv evId => events.filter fun e => e.id != evId
  | .drag evId s e2 ad =>
    events.map fun ev =>
      if ev.id = evId then { ev with start := s, «end» := e2, allDay := ad }
      else ev
  | .resize evId e2 =>
    events.map fun ev =>
      if ev.id = evId then { ev with «end» := e2 } else ev

/-- Operations other than the geometry-editing drag/resize handlers. -/
def ClientOp.nonDrag : ClientOp → Bool
  | .drag _ _ _ _ => false
  | .resize _ _ => false
  | _ => true

/-- The forbidden configuration: two events both `booked` for the same
`studentName` with overlapping intervals. -/
def bookedSameStudentOverlap (a b : CalendarEvent) : Bool :=
  a.status == some SlotStatus.booked && b.status == some SlotStatus.booked &&
    a.studentName == b.studentName && overlaps a b

/-- Data-model invariant: no two booked events of the same student overlap. -/
def Invariant (events : List CalendarEvent) : Prop :=
  events.Pairwise fun a b => bookedSameStudentOverlap a b = false

instance (events : List CalendarEvent) : Decidable (Invariant events) :=
  inferInstanceAs
    (Decidable (events.Pairwise fun a b => bookedSameStudentOverlap a b = false))

/-- Document ids are unique across the live set. -/
def UniqueIds (events : List CalendarEvent) : Prop :=
  (events.map (fun e => e.id)).Nodup

instance (events : List CalendarEvent) : Decidable (UniqueIds events) :=
  inferInstanceAs
    (Decidable (List.Nodup (events.map (fun e : CalendarEvent => e.id))))

/-- The `NoteDoc` fields relevant to deletion (src/note.tsx). -/
structure NoteDoc where
  id : Nat
  title : String
  storagePath : Option String
deriving DecidableEq, Repr

/-- Remote actions issued by `handleDelete`, in order. -/
inductive DelAction
  | deleteRecord (id : Nat)
  | deleteBlob (path : String)
  | warnLog
deriving DecidableEq, Repr

inductive DeleteOutcome
  | cancelled
  | ok
  | failedPrimary
deriving DecidableEq, Repr

/-- Backend state seen by the note deletion path: the Firestore records and
the storage blobs, each keyed as in the source. -/
structure NoteStore where
  records : List NoteDoc
  blobs : List String
deriving DecidableEq, Repr

/-- `handleDelete` (src/note.tsx): after the confirm dialog, `deleteDoc` the
record (its failure is caught by the outer catch and alerted: `failedPrimary`);
then, when `storagePath` is non-null, a `deleteObject` wrapped in its own
try/catch whose failure only logs a warning (`warnLog`) and changes nothing
else.  Fallible remote calls are modelled by the `recordDeleteFails` /
`blobDeleteFails` parameters. -/
def handleDelete (store : NoteStore) (note : NoteDoc) (confirmed : Bool)
    (recordDeleteFails blobDeleteFails : Bool) :
    NoteStore × DeleteOutcome × List DelAction :=
  if !confirmed then (store, .cancelled, [])
  else if recordDeleteFails then (store, .failedPrimary, [])
  else
    let store1 :=
      { store with records := store.records.filter fun n => n.id != note.id }
    match note.storagePath with
    | none => (store1, .ok, [.deleteRecord note.id])
    | some p =>
      if blobDeleteFails then
        (store1, .ok, [.deleteRecord note.id, .deleteBlob p, .warnLog])
      else
        ({ store1 with blobs := store1.blobs.filter fun q => q != p },
          .ok, [.deleteRecord note.id, .deleteBlob p])

/-- A generated slot, as `generateTimeSlots` builds one with a 15-minute
stride: id from the counter supply, the default slot title, green color,
status `available`. -/
def mkSlot (idB : Nat) (t : Int) : CalendarEvent :=
  { id := idB, title := "Conference Slot", start := t, «end» := some (t + 900000),
    allDay := false, color := "#43a047", status := some .available,
    studentName := none }

/-- An existing booked event 14:30–15:00 (52200000–54000000 ms). -/
def bookedHalf3 : CalendarEvent :=
  { id := 100, title := "Meeting", start := 52200000, «end» := some 54000000,
    allDay := false, color := "#f6c343", status := some .booked,
    studentName := some "Sam" }

/-- Interval [0, 30) as a plain event. -/
def slot0_30 : CalendarEvent :=
  { id := 0, title := "a", start := 0, «end» := some 30, allDay := false,
    color := "#42a5f5", status := none, studentName := none }

/-- Interval [30, 60) as a plain event. -/
def slot30_60 : CalendarEvent :=
  { id := 1, title := "b", start := 30, «end» := some 60, allDay := false,
    color := "#42a5f5", status := none, studentName := none }

/-- Interval [15, 45) as a plain event. -/
def slot15_45 : CalendarEvent :=
  { id := 2, title := "c", start := 15, «end» := some 45, allDay := false,
    color := "#42a5f5", status := none, studentName := none }

/-- A zero-width event: missing `end`, start at instant 0. -/
def zeroAt0 : CalendarEvent :=
  { id := 10, title := "p", start := 0, «end» := none, allDay := false,
    color := "#42a5f5", status := none, studentName := none }

/-- A zero-width event: missing `end`, start at instant 15. -/
def zeroAt15 : CalendarEvent :=
  { id := 11, title := "q", start := 15, «end» := none, allDay := false,
    color := "#42a5f5", status := none, studentName := none }

/-- An all-day event as `handleDateClick` stores one (src/calendar.tsx lines
134–145): `start` is the date (midnight, here 0), no `end` field. -/
def allDayEv : CalendarEvent :=
  { id := 50, title := "Holiday", start := 0, «end» := none, allDay := true,
    color := "#42a5f5", status := none, studentName := none }

/-- A slot booked for Sam, 00:00–00:30 of the modelled day. -/
def samEarly : CalendarEvent :=
  { id := 1, title := "Slot", start := 0, «end» := some 1800000, allDay := false,
    color := "#f6c343", status := some .booked, studentName := some "Sam" }

/-- A slot booked for Sam, 01:00–01:30 of the modelled day. -/
def samLate : CalendarEvent :=
  { id := 2, title := "Slot", start := 3600000, «end» := some 5400000,
    allDay := false, color := "#f6c343", status := some .booked,
    studentName := some "Sam" }

/-- An available slot, 02:00–02:30 of the modelled day. -/
def freeSlot : CalendarEvent :=
  { id := 3, title := "Slot", start := 7200000, «end» := some 9000000,
    allDay := false, color := "#43a047", status := some .available,
    studentName := none }

/-- An available slot 00:00–00:30 whose interval collides with Sam's booking. -/
def freeOverlapping : CalendarEvent :=
  { id := 4, title := "Slot", start := 0, «end» := some 1800000, allDay := false,
    color := "#43a047", status := some .available, studentName := none }

/-- An event covering the whole modelled day, blocking every candidate. -/
def blockAll : CalendarEvent :=
  { id := 60, title := "Block", start := 0, «end» := some 86400000,
    allDay := false, color := "#42a5f5", status := none, studentName := none }

/-- A note record with an attachment path. -/
def noteA : NoteDoc :=
  { id := 7, title := "n", storagePath := some "users/u/notes/f" }

/-- A backend state holding that note and its blob. -/
def store0 : NoteStore := { records := [noteA], blobs := ["users/u/notes/f"] }

theorem overlaps_comm (a b : CalendarEvent) : overlaps a b = overlaps b a := by
  simp [overlaps, Bool.and_comm]

theorem overlaps_eq_true_iff (a b : CalendarEvent) :
    overlaps a b = true ↔ evStart a < evEnd b ∧ evStart b < evEnd a := by
  simp [overlaps]

theorem overlaps_studentName (a b : CalendarEvent) (x : Option String) :
    overlaps a { b with studentName := x } = overlaps a b := rfl

theorem genLoop_succ (stride stop : Int) (existing : List CalendarEvent)
    (title : String) (f idBase : Nat) (t : Int) :
    genLoop stride stop existing title (f + 1) idBase t =
      if t < stop ∧ t + stride ≤ stop then
        (let candidate : CalendarEvent :=
          { id := idBase, title := title, start := t, «end» := some (t + stride),
            allDay := false, color := "#43a047", status := some .available,
            studentName := none }
        let rest := genLoop stride stop existing title f (idBase + 1) (t + stride)
        if existing.any (fun e => overlaps e candidate) then rest
        else candidate :: rest)
      else [] := rfl

theorem genLoop_mem {stride stop : Int} {existing : List CalendarEvent} {title : String}
    (hstride : 0 < stride) :
    ∀ (fuel idBase : Nat) (t : Int) (s : CalendarEvent),
      s ∈ genLoop stride stop existing title fuel idBase t →
      (∃ k : Nat, s.start = t + (k : Int) * stride) ∧
      s.«end» = some (s.start + stride) ∧
      s.start + stride ≤ stop ∧
      s.status = some SlotStatus.available ∧
      s.title = title ∧ s.allDay = false ∧ s.studentName = none ∧
      s.color = "#43a047" ∧
      idBase ≤ s.id ∧ t ≤ s.start ∧
      ∀ e ∈ existing, overlaps e s = false := by
  intro fuel
  induction fuel with
  | zero => intro idBase t s hs; simp [genLoop] at hs
  | succ f ih =>
    intro idBase t s hs
    rw [genLoop_succ] at hs
    split at hs
    case isFalse => simp at hs
    case isTrue hg =>
      simp only [] at hs
      split at hs
      case isTrue hc =>
        obtain ⟨⟨k, hk⟩, h2, h3, h4, h5, h6, h7, h8, h9, h10, h11⟩ := ih (idBase + 1) (t + stride) s hs
        refine ⟨⟨k + 1, by push_cast [hk]; ring⟩, h2, h3, h4, h5, h6, h7, h8, by omega, by omega, h11⟩
      case isFalse hc =>
        rw [Bool.not_eq_true] at hc
        rcases List.mem_cons.mp hs with hcand | hrest
        · subst hcand
          refine ⟨⟨0, by simp⟩, rfl, hg.2, rfl, rfl, rfl, rfl, rfl, le_refl _, le_refl _, ?_⟩
          intro e he
          simpa using List.any_eq_false.mp hc e he
        · obtain ⟨⟨k, hk⟩, h2, h3, h4, h5, h6, h7, h8, h9, h10, h11⟩ := ih (idBase + 1) (t + stride) s hrest
          refine ⟨⟨k + 1, by push_cast [hk]; ring⟩, h2, h3, h4, h5, h6, h7, h8, by omega, by omega, h11⟩


theorem genLoop_pairwise {stride stop : Int} {existing : List CalendarEvent} {title : String}
    (hstride : 0 < stride) :
    ∀ (fuel idBase : Nat) (t : Int),
      (genLoop stride stop existing title fuel idBase t).Pairwise
        (fun a b => a.start + stride ≤ b.start ∧ a.id < b.id) := by
  intro fuel
  induction fuel with
  | zero => intro idBase t; simp [genLoop]
  | succ f ih =>
    intro idBase t
    rw [genLoop_succ]
    split
    case isFalse => simp
    case isTrue hg =>
      simp only []
      split
      case isTrue hc => exact ih (idBase + 1) (t + stride)
      case isFalse hc =>
        refine List.Pairwise.cons ?_ (ih (idBase + 1) (t + stride))
        intro b hb
        obtain ⟨_, _, _, _, _, _, _, _, h9, h10, _⟩ :=
          genLoop_mem hstride f (idBase + 1) (t + stride) b hb
        refine ⟨h10, ?_⟩
        show idBase < b.id
        omega

theorem stride_pos (m : Int) : 0 < max 5 m * 60000 := by
  have h5 : (5 : Int) ≤ max 5 m := le_max_left _ _
  nlinarith

theorem generateTimeSlots_created {start stop m : Int} {existing : List CalendarEvent}
    {title : String} {idBase : Nat} {slots : List CalendarEvent}
    (h : generateTimeSlots start stop m existing title idBase = .created slots) :
    start < stop ∧
    slots = genLoop (max 5 m * 60000) stop existing title
      (((stop - start) / (max 5 m * 60000)).toNat + 1) idBase start := by
  by_cases h1 : stop ≤ start
  · simp [generateTimeSlots, h1] at h
  · refine ⟨by omega, ?_⟩
    simp only [generateTimeSlots, if_neg h1] at h
    split at h
    next => exact absurd h (by simp)
    next => injection h with h2; exact h2.symm

theorem evEnd_none {a : CalendarEvent} (h : a.«end» = none) : evEnd a = a.start := by
  simp [evEnd, h]

theorem evEnd_some {a : CalendarEvent} {x : Int} (h : a.«end» = some x) : evEnd a = x := by
  simp [evEnd, h]

theorem overlaps_eq_false_right {a b : CalendarEvent} (h : evEnd a ≤ evStart b) :
    overlaps a b = false := by
  have h2 : ¬ (evStart b < evEnd a) := by omega
  simp [overlaps, h2]

theorem genLoop_cons_noEnd (stride stop : Int) (a : CalendarEvent)
    (ex : List CalendarEvent) (title : String) (hstride : 0 < stride)
    (hend : a.«end» = none) :
    ∀ (fuel idBase : Nat) (t : Int), a.start ≤ t →
      genLoop stride stop (a :: ex) title fuel idBase t =
      genLoop stride stop ex title fuel idBase t := by
  intro fuel
  induction fuel with
  | zero => intro idBase t ht; rfl
  | succ f ih =>
    intro idBase t ht
    rw [genLoop_succ, genLoop_succ]
    split
    case isFalse => rfl
    case isTrue hg =>
      simp only []
      have hov : overlaps a
          { id := idBase, title := title, start := t, «end» := some (t + stride),
            allDay := false, color := "#43a047", status := some .available,
            studentName := none } = false := by
        refine overlaps_eq_false_right ?_
        rw [evEnd_none hend]
        exact ht
      have hrec := ih (idBase + 1) (t + stride) (by omega)
      simp only [List.any_cons, hov, Bool.false_or, hrec]

theorem bookingConflict_cons_noEnd {a cand : CalendarEvent}
    {events : List CalendarEvent} {name : String}
    (hend : a.«end» = none) (hle : a.start ≤ cand.start) :
    bookingConflict (a :: events) name cand = bookingConflict events name cand := by
  have hov : overlaps a cand = false := by
    refine overlaps_eq_false_right ?_
    rw [evEnd_none hend]
    exact hle
  simp [bookingConflict, List.any_cons, hov]

theorem handleBookClick_eq_some {events : List CalendarEvent} {evId : Nat}
    {name : String} {w : BookingWrite} (h : handleBookClick events evId name = some w) :
    ∃ ev, events.find? (fun e => e.id == evId) = some ev ∧
      ev.status = some SlotStatus.available ∧ name ≠ "" ∧
      bookingConflict events name { ev with studentName := some name } = false ∧
      w = ⟨evId, SlotStatus.booked, name, "#f6c343"⟩ := by
  cases hfind : events.find? (fun e => e.id == evId) with
  | none => simp only [handleBookClick, hfind] at h; exact absurd h (by simp)
  | some ev =>
    simp only [handleBookClick, hfind] at h
    by_cases hst : (ev.status == some SlotStatus.available) = true
    · rw [if_pos hst] at h
      by_cases hname : name = ""
      · rw [if_pos hname] at h; exact absurd h (by simp)
      · rw [if_neg hname] at h
        by_cases hconf :
            bookingConflict events name { ev with studentName := some name } = true
        · simp only [hconf, if_true] at h; exact absurd h (by simp)
        · simp only [Bool.not_eq_true] at hconf
          simp only [hconf, Bool.false_eq_true, if_false] at h
          exact ⟨ev, rfl, by simpa using hst, hname, hconf, (Option.some_inj.mp h).symm⟩
    · rw [if_neg hst] at h; exact absurd h (by simp)

theorem overlaps_book_patch_left (ev b : CalendarEvent) (x : Option SlotStatus)
    (y : Option String) (z : String) :
    overlaps { ev with status := x, studentName := y, color := z } b =
      overlaps ev b := rfl

theorem overlaps_book_patch_right (a ev : CalendarEvent) (x : Option SlotStatus)
    (y : Option String) (z : String) :
    overlaps a { ev with status := x, studentName := y, color := z } =
      overlaps a ev := rfl

/-- C1: every slot produced by `generateTimeSlots` is overlap-free against every
event of the existing snapshot (of any status) — an overlapping candidate is
simply dropped, never shifted, and never reaches the persisted batch; and on
the 14:00–16:00 window with 15-minute slots and one booked event 14:30–15:00,
exactly the two candidates 14:30–14:45 and 14:45–15:00 (ids 2 and 3 of the
counter supply) are excluded and the 6 slots with ids 0, 1, 4, 5, 6, 7
remain. -/
theorem generated_slots_avoid_existing :
    (∀ (start stop m : Int) (existing : List CalendarEvent) (title : String)
        (idBase : Nat) (slots : List CalendarEvent),
        generateTimeSlots start stop m existing title idBase = .created slots →
        ∀ s ∈ slots, ∀ e ∈ existing,
          overlaps e s = false ∧ overlaps s e = false) ∧
    generateTimeSlots 50400000 57600000 15 [bookedHalf3] "Conference Slot" 0 =
      .created [mkSlot 0 50400000, mkSlot 1 51300000, mkSlot 4 54000000,
                mkSlot 5 54900000, mkSlot 6 55800000, mkSlot 7 56700000] := by
  constructor
  · intro start stop m existing title idBase slots h s hs e he
    obtain ⟨hlt, hslots⟩ := generateTimeSlots_created h
    rw [hslots] at hs
    obtain ⟨_, _, _, _, _, _, _, _, _, _, hov⟩ :=
      genLoop_mem (stride_pos m) _ _ _ s hs
    have h1 := hov e he
    exact ⟨h1, by rw [overlaps_comm]; exact h1⟩
  · decide

/-- C3: `overlaps a b` returns true iff `aStart < bEnd` and `bStart < aEnd`,
where a missing end is treated as equal to that event's start; consequently
the touching intervals [0,30) and [30,60) do not overlap. -/
theorem overlaps_characterization :
    (∀ a b : CalendarEvent,
        overlaps a b = true ↔ evStart a < evEnd b ∧ evStart b < evEnd a) ∧
    (∀ a : CalendarEvent, a.«end» = none → evEnd a = evStart a) ∧
    overlaps slot0_30 slot30_60 = false := by
  refine ⟨overlaps_eq_true_iff, ?_, by decide⟩
  intro a h
  exact evEnd_none h

/-- C4: generated slots sit on the fixed grid anchored at `windowStart` with
stride `max 5 slotDurationMinutes * 60000` ms (the below-5 clamp), each slot
ends exactly one stride after its start and never past `windowEnd` (a partial
trailing slot is discarded, not truncated), every slot has status `available`;
the output is strictly time-ordered, has pairwise distinct ids and is pairwise
non-overlapping; and the 14:00–16:00 window with 15-minute slots and no
existing events yields exactly the 8 slots 14:00–14:15 … 15:45–16:00. -/
theorem generated_slots_grid :
    (∀ (start stop m : Int) (existing : List CalendarEvent) (title : String)
        (idBase : Nat) (slots : List CalendarEvent),
        generateTimeSlots start stop m existing title idBase = .created slots →
        (∀ s ∈ slots,
            (∃ k : Nat, s.start = start + (k : Int) * (max 5 m * 60000)) ∧
            s.«end» = some (s.start + max 5 m * 60000) ∧
            s.start + max 5 m * 60000 ≤ stop ∧
            s.status = some SlotStatus.available) ∧
        slots.Pairwise (fun a b =>
          a.start < b.start ∧ a.id ≠ b.id ∧
          overlaps a b = false ∧ overlaps b a = false)) ∧
    generateTimeSlots 50400000 57600000 15 [] "Conference Slot" 0 =
      .created [mkSlot 0 50400000, mkSlot 1 51300000, mkSlot 2 52200000,
                mkSlot 3 53100000, mkSlot 4 54000000, mkSlot 5 54900000,
                mkSlot 6 55800000, mkSlot 7 56700000] := by
  constructor
  · intro start stop m existing title idBase slots h
    obtain ⟨hlt, hslots⟩ := generateTimeSlots_created h
    subst hslots
    have hstride := stride_pos m
    constructor
    · intro s hs
      obtain ⟨hk, h2, h3, h4, _⟩ := genLoop_mem hstride _ _ _ s hs
      exact ⟨hk, h2, h3, h4⟩
    · refine List.Pairwise.imp_of_mem ?_ (genLoop_pairwise hstride _ _ _)
      intro a b ha hb hab
      obtain ⟨_, ha2, _⟩ := genLoop_mem hstride _ _ _ a ha
      have hov : overlaps a b = false := by
        refine overlaps_eq_false_right ?_
        rw [evEnd_some ha2]
        exact hab.1
      refine ⟨by omega, by omega, hov, by rw [overlaps_comm]; exact hov⟩
  · decide

/-- C6 counterexample: for the zero-width event [0,0) (missing end) and the
interval [0,30), the claimed condition `s ≤ t < e` holds (s = t = 0 < 30),
yet `overlaps` returns false — the claim's `s ≤ t` must be strict. -/
theorem zero_width_touching_no_overlap :
    zeroAt0.«end» = none ∧
    evStart slot0_30 ≤ evStart zeroAt0 ∧ evStart zeroAt0 < evEnd slot0_30 ∧
    overlaps zeroAt0 slot0_30 = false := by decide

/-- C6 amended: a zero-width event [t,t) (missing end) overlaps an interval
[s,e) iff `s < t` and `t < e` — strict containment of the instant, so a
zero-width event sitting on an interval's start does not overlap it. -/
theorem zero_width_overlap_iff :
    ∀ a b : CalendarEvent, a.«end» = none →
      (overlaps a b = true ↔ evStart b < evStart a ∧ evStart a < evEnd b) := by
  intro a b h
  rw [overlaps_eq_true_iff, evEnd_none h]
  exact and_comm

/-- C7 counterexample: a degenerate window (end = start = 14:00) is rejected
as the 'Invalid time range.' validation error (`invalidRange`), which is not
the 'zero slots created' report (`noSlots`) the claim asserts. -/
theorem degenerate_window_is_error :
    generateTimeSlots 50400000 50400000 15 [] "Conference Slot" 0 =
      GenResult.invalidRange ∧
    GenResult.invalidRange ≠ GenResult.noSlots := by decide

/-- C7 amended: a degenerate window (end ≤ start) is rejected as a validation
error before any write; the `invalidRange` and `noSlots` outcomes persist no
batch; and for a valid window the outcome is either the 'zero slots created'
report or a persisted non-empty batch. -/
theorem generate_error_reporting :
    (∀ (start stop m : Int) (existing : List CalendarEvent) (title : String)
        (idBase : Nat), stop ≤ start →
        generateTimeSlots start stop m existing title idBase = .invalidRange) ∧
    genWrites .invalidRange = [] ∧ genWrites .noSlots = [] ∧
    (∀ (start stop m : Int) (existing : List CalendarEvent) (title : String)
        (idBase : Nat), start < stop →
        generateTimeSlots start stop m existing title idBase = .noSlots ∨
        ∃ slots, generateTimeSlots start stop m existing title idBase =
            .created slots ∧ slots ≠ []) := by
  refine ⟨?_, rfl, rfl, ?_⟩
  · intro start stop m existing title idBase h
    simp [generateTimeSlots, h]
  · intro start stop m existing title idBase h
    simp only [generateTimeSlots, if_neg (by omega : ¬ stop ≤ start)]
    split
    next he => exact Or.inl rfl
    next he => exact Or.inr ⟨_, rfl, by simpa using he⟩

/-- C8: `overlaps` is symmetric, and `overlaps a a` is true exactly for
positive-width events: true when `start < end`, false when the event is
zero-width. -/
theorem overlaps_symm_and_self :
    (∀ a b : CalendarEvent, overlaps a b = overlaps b a) ∧
    (∀ a : CalendarEvent, evStart a < evEnd a → overlaps a a = true) ∧
    (∀ a : CalendarEvent, evEnd a = evStart a → overlaps a a = false) := by
  refine ⟨overlaps_comm, ?_, ?_⟩
  · intro a h; simp [overlaps, h]
  · intro a h; simp [overlaps, h]

/-- C10: an event stored with no end field (e.g. an all-day event, whose start
is its date at midnight) never overlaps an event starting at or after its
start instant; hence prepending such an event to the existing snapshot changes
neither the slots `generateTimeSlots` produces (when the window starts at or
after it) nor the booking-conflict verdict for any slot starting at or after
it. -/
theorem no_end_events_never_conflict :
    (∀ a b : CalendarEvent, a.«end» = none → a.start ≤ b.start →
        overlaps a b = false ∧ overlaps b a = false) ∧
    (∀ (start stop m : Int) (a : CalendarEvent) (ex : List CalendarEvent)
        (title : String) (idBase : Nat),
        a.«end» = none → a.start ≤ start →
        generateTimeSlots start stop m (a :: ex) title idBase =
          generateTimeSlots start stop m ex title idBase) ∧
    (∀ (a cand : CalendarEvent) (events : List CalendarEvent) (name : String),
        a.«end» = none → a.start ≤ cand.start →
        bookingConflict (a :: events) name cand =
          bookingConflict events name cand) := by
  refine ⟨?_, ?_, fun a cand events name h1 h2 => bookingConflict_cons_noEnd h1 h2⟩
  · intro a b h1 h2
    have hov : overlaps a b = false := by
      refine overlaps_eq_false_right ?_
      rw [evEnd_none h1]
      exact h2
    exact ⟨hov, by rw [overlaps_comm]; exact hov⟩
  · intro start stop m a ex title idBase h1 h2
    by_cases hd : stop ≤ start
    · simp [generateTimeSlots, hd]
    · have hrw := genLoop_cons_noEnd _ stop a ex title (stride_pos m) h1
        (((stop - start) / (max 5 m * 60000)).toNat + 1) idBase start h2
      simp only [generateTimeSlots, if_neg hd, hrw]


/-- C2: for a booking click on an event found in the snapshot with status
exactly `available` and a non-empty student name: the conflict scan finds
exactly the booked events of the same student with an overlapping interval;
on conflict the transition is refused with no write and an unchanged snapshot;
otherwise the one persisted write sets `status`, `studentName` and `color`
together. -/
theorem booking_checked_transition :
    ∀ (events : List CalendarEvent) (evId : Nat) (name : String)
      (ev : CalendarEvent),
      events.find? (fun e => e.id == evId) = some ev →
      ev.status = some SlotStatus.available →
      name ≠ "" →
      ((bookingConflict events name { ev with studentName := some name } = true ↔
          ∃ e ∈ events, e.status = some SlotStatus.booked ∧
            e.studentName = some name ∧ overlaps e ev = true) ∧
       (bookingConflict events name { ev with studentName := some name } = true →
          handleBookClick events evId name = none ∧
          applyOp events (.book evId name) = events) ∧
       (bookingConflict events name { ev with studentName := some name } = false →
          handleBookClick events evId name =
            some ⟨evId, SlotStatus.booked, name, "#f6c343"⟩ ∧
          applyOp events (.book evId name) =
            applyBookingWrite events ⟨evId, SlotStatus.booked, name, "#f6c343"⟩)) := by
  intro events evId name ev hfind hst hname
  have hbeq : (ev.status == some SlotStatus.available) = true := by simp [hst]
  refine ⟨?_, ?_, ?_⟩
  · simp [bookingConflict, List.any_eq_true, Bool.and_eq_true, beq_iff_eq,
      overlaps_studentName, and_assoc]
  · intro hc
    have hb : handleBookClick events evId name = none := by
      simp only [handleBookClick, hfind, hbeq, if_true, if_neg hname, hc]
    exact ⟨hb, by simp only [applyOp, hb]⟩
  · intro hc
    have hb : handleBookClick events evId name =
        some ⟨evId, SlotStatus.booked, name, "#f6c343"⟩ := by
      simp only [handleBookClick, hfind, hbeq, if_true, if_neg hname, hc,
        Bool.false_eq_true, if_false]
    exact ⟨hb, by simp only [applyOp, hb]⟩

/-- C9: deleting a note whose record carries a non-null `storagePath` issues
the record delete and then the best-effort blob delete; when the blob delete
fails, only a warning is logged, the record delete is not rolled back, and
the operation still reports success. -/
theorem note_delete_best_effort :
    ∀ (store : NoteStore) (note : NoteDoc) (p : String) (blobFails : Bool),
      note.storagePath = some p →
      handleDelete store note true false blobFails =
        ({ records := store.records.filter fun n => n.id != note.id,
           blobs := if blobFails then store.blobs
                    else store.blobs.filter fun q => q != p },
         DeleteOutcome.ok,
         DelAction.deleteRecord note.id :: DelAction.deleteBlob p ::
           (if blobFails then [DelAction.warnLog] else [])) := by
  intro store note p blobFails hp
  cases blobFails <;> simp [handleDelete, hp]

/-- C5 counterexample: a state satisfying the same-student no-overlap
invariant (two disjoint slots booked for Sam, unique ids) is taken by one
`eventDrop` client operation — which writes the new interval with no conflict
check — to a state violating the invariant. -/
theorem drag_violates_invariant :
    Invariant [samEarly, samLate] ∧ UniqueIds [samEarly, samLate] ∧
    ¬ Invariant (applyOp [samEarly, samLate]
        (.drag 2 0 (some 1800000) false)) := by decide

/-- C5 amended: in any state with unique ids satisfying the same-student
no-overlap invariant, slot generation, booking and deletion preserve the
invariant; the drag-move and resize handlers are excluded because they issue
unconditional writes (see the counterexample). -/
theorem invariant_preserved_without_drag :
    ∀ (events : List CalendarEvent) (op : ClientOp),
      op.nonDrag = true → UniqueIds events → Invariant events →
      Invariant (applyOp events op) := by
  intro events op hop hids hinv
  cases op with
  | drag evId s e2 ad => simp [ClientOp.nonDrag] at hop
  | resize evId e2 => simp [ClientOp.nonDrag] at hop
  | deleteEv evId => exact List.Pairwise.filter _ hinv
  | generate start stop m title idBase =>
    show Invariant (match generateTimeSlots start stop m events title idBase with
      | .created slots => events ++ slots
      | _ => events)
    cases hres : generateTimeSlots start stop m events title idBase with
    | invalidRange => exact hinv
    | noSlots => exact hinv
    | created slots =>
      have hstat : ∀ s ∈ slots, s.status = some SlotStatus.available := by
        intro s hs
        obtain ⟨hlt, hslots⟩ := generateTimeSlots_created hres
        rw [hslots] at hs
        exact (genLoop_mem (stride_pos m) _ _ _ s hs).2.2.2.1
      refine List.pairwise_append.mpr ⟨hinv, ?_, ?_⟩
      · refine List.pairwise_of_forall_mem_list ?_
        intro a ha b hb
        simp [bookedSameStudentOverlap, hstat b hb]
      · intro a ha b hb
        simp [bookedSameStudentOverlap, hstat b hb]
  | book evId name =>
    show Invariant (match handleBookClick events evId name with
      | some w => applyBookingWrite events w
      | none => events)
    cases hbk : handleBookClick events evId name with
    | none => exact hinv
    | some w =>
      obtain ⟨ev, hfind, hst, hname, hconf, hw⟩ := handleBookClick_eq_some hbk
      subst hw
      have hev_mem : ev ∈ events := List.mem_of_find?_eq_some hfind
      have hev_id : ev.id = evId := by
        have := List.find?_some hfind
        simpa using this
      have hinj : ∀ x ∈ events, x.id = evId → x = ev := by
        intro x hx hxid
        exact List.inj_on_of_nodup_map hids hx hev_mem (by rw [hxid, hev_id])
      have hids2 : events.Pairwise fun a b => a.id ≠ b.id :=
        List.pairwise_map.mp hids
      have hconf2 : ∀ e ∈ events, e.status = some SlotStatus.booked →
          e.studentName = some name → overlaps e ev = false := by
        intro e he h1 h2
        have hany : (events.any fun e =>
            e.status == some SlotStatus.booked && e.studentName == some name &&
              overlaps e { ev with studentName := some name }) = false := by
          simpa [bookingConflict] using hconf
        have := List.any_eq_false.mp hany e he
        simpa [h1, h2, overlaps_studentName] using this
      show Invariant
        (applyBookingWrite events ⟨evId, SlotStatus.booked, name, "#f6c343"⟩)
      unfold Invariant applyBookingWrite
      rw [List.pairwise_map]
      refine List.Pairwise.imp_of_mem ?_ (hinv.and hids2)
      intro a b ha hb hab
      obtain ⟨hfalse, hne⟩ := hab
      by_cases haid : a.id = evId
      · have haev : a = ev := hinj a ha haid
        by_cases hbid : b.id = evId
        · exact absurd (haid.trans hbid.symm) hne
        · subst haev
          simp only [if_pos haid, if_neg hbid]
          simp [bookedSameStudentOverlap, overlaps_book_patch_left]
          intro hb1 hb2
          rw [overlaps_comm]
          exact hconf2 b hb hb1 hb2.symm
      · by_cases hbid : b.id = evId
        · have hbev : b = ev := hinj b hb hbid
          subst hbev
          simp only [if_neg haid, if_pos hbid]
          simp [bookedSameStudentOverlap, overlaps_book_patch_right]
          intro ha1 ha2
          exact hconf2 a ha ha1 ha2
        · simp only [if_neg haid, if_neg hbid]
          exact hfalse


theorem generated_slots_avoid_existing_witness :
    overlaps bookedHalf3 (mkSlot 0 50400000) = false ∧
    overlaps (mkSlot 0 50400000) bookedHalf3 = false :=
  generated_slots_avoid_existing.1 50400000 57600000 15 [bookedHalf3]
    "Conference Slot" 0 _ generated_slots_avoid_existing.2
    (mkSlot 0 50400000) (by decide) bookedHalf3 (by decide)

theorem booking_checked_transition_witness :
    handleBookClick [freeSlot, samEarly] 3 "Sam" =
      some ⟨3, SlotStatus.booked, "Sam", "#f6c343"⟩ ∧
    handleBookClick [freeOverlapping, samEarly] 4 "Sam" = none :=
  ⟨((booking_checked_transition [freeSlot, samEarly] 3 "Sam" freeSlot (by decide)
      (by decide) (by decide)).2.2 (by decide)).1,
   ((booking_checked_transition [freeOverlapping, samEarly] 4 "Sam" freeOverlapping
      (by decide) (by decide) (by decide)).2.1 (by decide)).1⟩

theorem overlaps_characterization_witness :
    overlaps slot0_30 slot15_45 = true ∧ evEnd zeroAt0 = evStart zeroAt0 :=
  ⟨(overlaps_characterization.1 slot0_30 slot15_45).mpr (by decide),
   overlaps_characterization.2.1 zeroAt0 (by decide)⟩

theorem generated_slots_grid_witness :
    (∃ k : Nat, (mkSlot 0 50400000).start =
        50400000 + (k : Int) * (max 5 15 * 60000)) ∧
    (mkSlot 0 50400000).status = some SlotStatus.available :=
  let h := (generated_slots_grid.1 50400000 57600000 15 [] "Conference Slot" 0 _
    generated_slots_grid.2).1 (mkSlot 0 50400000) (by decide)
  ⟨h.1, h.2.2.2⟩

theorem invariant_preserved_without_drag_witness :
    Invariant (applyOp [freeSlot, samEarly] (.book 3 "Pat")) :=
  invariant_preserved_without_drag [freeSlot, samEarly] (.book 3 "Pat")
    (by decide) (by decide) (by decide)

theorem zero_width_overlap_iff_witness :
    overlaps zeroAt15 slot0_30 = true :=
  (zero_width_overlap_iff zeroAt15 slot0_30 (by decide)).mpr (by decide)

theorem generate_error_reporting_witness :
    generateTimeSlots 0 0 15 [] "T" 1 = .invalidRange ∧
    (generateTimeSlots 50400000 57600000 15 [blockAll] "Conference Slot" 0 =
        .noSlots ∨
      ∃ slots, generateTimeSlots 50400000 57600000 15 [blockAll]
          "Conference Slot" 0 = .created slots ∧ slots ≠ []) :=
  ⟨generate_error_reporting.1 0 0 15 [] "T" 1 (by decide),
   generate_error_reporting.2.2.2 50400000 57600000 15 [blockAll]
     "Conference Slot" 0 (by decide)⟩

theorem overlaps_symm_and_self_witness :
    overlaps slot0_30 slot15_45 = overlaps slot15_45 slot0_30 ∧
    overlaps slot0_30 slot0_30 = true ∧ overlaps zeroAt0 zeroAt0 = false :=
  ⟨overlaps_symm_and_self.1 slot0_30 slot15_45,
   overlaps_symm_and_self.2.1 slot0_30 (by decide),
   overlaps_symm_and_self.2.2 zeroAt0 (by decide)⟩

theorem note_delete_best_effort_witness :
    handleDelete store0 noteA true false true =
      ({ records := [], blobs := ["users/u/notes/f"] }, DeleteOutcome.ok,
       [DelAction.deleteRecord 7, DelAction.deleteBlob ("users/u/notes/f"),
        DelAction.warnLog]) :=
  (note_delete_best_effort store0 noteA ("users/u/notes/f") true rfl).trans
    (by decide)

theorem no_end_events_never_conflict_witness :
    (overlaps allDayEv (mkSlot 0 50400000) = false ∧
      overlaps (mkSlot 0 50400000) allDayEv = false) ∧
    generateTimeSlots 50400000 57600000 15 [allDayEv] "Conference Slot" 0 =
      generateTimeSlots 50400000 57600000 15 [] "Conference Slot" 0 ∧
    bookingConflict [allDayEv] "Sam" freeSlot =
      bookingConflict [] "Sam" freeSlot :=
  ⟨no_end_events_never_conflict.1 allDayEv (mkSlot 0 50400000) (by decide)
      (by decide),
   no_end_events_never_conflict.2.1 50400000 57600000 15 allDayEv []
     "Conference Slot" 0 (by decide) (by decide),
   no_end_events_never_conflict.2.2 allDayEv freeSlot [] "Sam" (by decide)
     (by decide)⟩

end MLBQ
